import Mathlib

set_option linter.unusedVariables false

/-! Shallow embedding of the zitbo server session-coordination core
    (src/index.js): the work-interval state machine (the workedTimeSpan:end
    handler), the session registry (the roomsStates collection and its
    handlers), task creation, the disconnect reconciler, and the
    totalCompletedTimes aggregation pipeline.

    Instants are modelled as integer milliseconds since the epoch.
    Mongo ObjectIds are modelled as natural numbers.  A timezone is
    modelled as a fixed offset in milliseconds, so the Y-m-d rendering of
    dateToString becomes the floor of days since the epoch of the shifted
    instant. -/

namespace Zitbo

/-- A workedTimeSpan subdocument with fields id, startTime and an optional
    endTime; an absent endTime means the interval is still open. -/
structure WorkedTimeSpan where
  spanId : Nat
  startTime : Int
  endTime : Option Int := none
deriving DecidableEq

/-- A task document with fields id, doer, name, date (creation instant)
    and the workedTimeSpans array. -/
structure Task where
  taskId : Nat
  doer : String
  name : String
  date : Int
  workedTimeSpans : List WorkedTimeSpan
deriving DecidableEq

/-- A roomsStates document with fields room (the username) and
    activeTaskId; the empty string is the sentinel for no active task. -/
structure RoomState where
  room : String
  activeTaskId : String
deriving DecidableEq

/-- An observable output of a socket handler: the acknowledgement callback
    to the calling socket, or a tasksChange broadcast to the room of the
    user, carrying the day index and an optional activeTaskId argument. -/
inductive SocketEvent where
  | ack
  | tasksChange (indexInTasksOfDays : Int) (activeTaskId : Option String)
deriving DecidableEq

/-- The persisted state the handlers touch: the tasks collection and the
    roomsStates collection, both modelled as document lists. -/
structure ServerState where
  tasks : List Task
  roomsStates : List RoomState
deriving DecidableEq

/-- Operation findOne on roomsStates filtered by the room field. -/
def findRoomState (rs : List RoomState) (username : String) : Option RoomState :=
  rs.find? (fun r => r.room == username)

/-- The activeTaskId value the end handler reads from the registry, with
    the default parameter of sendResponse applied: an absent entry (an
    undefined activeTaskId variable) reads as the empty sentinel. -/
def currentActiveTaskId (rs : List RoomState) (username : String) : String :=
  ((findRoomState rs username).map RoomState.activeTaskId).getD ""

/-- JavaScript truthiness of the activeTaskId read from the registry: an
    absent entry (undefined) and the empty string are falsy. -/
def activeTaskIdTruthy (a : Option String) : Bool :=
  match a with
  | some s => s != ""
  | none => false

/-- The filter on the task id together with the embedded span id: the task
    with this id whose workedTimeSpans array contains a span with the
    given id. -/
def taskSpanFilter (taskId spanId : Nat) (t : Task) : Bool :=
  t.taskId == taskId && t.workedTimeSpans.any (fun s => s.spanId == spanId)

/-- Operation findOne with the positional projection: the matched task
    together with the first span matching the span id, which is the one
    element the projection keeps in workedTimeSpans. -/
def findTaskProjected (tasks : List Task) (taskId spanId : Nat) :
    Option (Task × WorkedTimeSpan) :=
  (tasks.find? (taskSpanFilter taskId spanId)).bind
    (fun t => (t.workedTimeSpans.find? (fun s => s.spanId == spanId)).map
      (fun s => (t, s)))

/-- The span the end handler inspects: element 0 of workedTimeSpans after
    the positional projection. -/
def getSpan (tasks : List Task) (taskId spanId : Nat) : Option WorkedTimeSpan :=
  (findTaskProjected tasks taskId spanId).map Prod.snd

/-- The positional update setting endTime: sets endTime on the first span
    matching the span id of the filter. -/
def closeFirstSpan (spans : List WorkedTimeSpan) (spanId : Nat) (e : Int) :
    List WorkedTimeSpan :=
  match spans with
  | [] => []
  | s :: rest =>
    if s.spanId == spanId then { s with endTime := some e } :: rest
    else s :: closeFirstSpan rest spanId e

/-- Operation updateOne with the task-and-span filter: updates the first
    document matching the filter, closing the matched span there. -/
def endUpdate (tasks : List Task) (taskId spanId : Nat) (e : Int) : List Task :=
  match tasks with
  | [] => []
  | t :: rest =>
    if taskSpanFilter taskId spanId t then
      { t with workedTimeSpans := closeFirstSpan t.workedTimeSpans spanId e } :: rest
    else t :: endUpdate rest taskId spanId e

/-- The guard of the workedTimeSpan:end handler: no task, or an empty
    projected workedTimeSpans array, or the matched span already has
    endTime, or wasDisconnected together with a truthy registry
    activeTaskId.  After the positional projection the matched span is
    element 0, and a task returned by the filter always has one, so the
    empty-array case is folded into the none case. -/
def endNoop (st : ServerState) (username : String) (taskId spanId : Nat)
    (wasDisconnected : Bool) : Bool :=
  (match findTaskProjected st.tasks taskId spanId with
   | none => true
   | some (_, s) => s.endTime.isSome)
  || (wasDisconnected && activeTaskIdTruthy
        ((findRoomState st.roomsStates username).map RoomState.activeTaskId))

/-- Function sendResponse of the end handler: the acknowledgement callback
    is invoked first; the tasksChange broadcast is emitted afterwards, and
    only when indexInTasksOfDays is at least 0. -/
def sendResponse (indexInTasksOfDays : Int) (activeTaskId : String) :
    List SocketEvent :=
  SocketEvent.ack ::
    (if 0 ≤ indexInTasksOfDays then
      [SocketEvent.tasksChange indexInTasksOfDays (some activeTaskId)]
    else [])

/-- The output of one workedTimeSpan:end call: the tasks collection after
    the call, the emitted events in order, and the activeTaskId value the
    call hands to sendResponse, that is the resulting active task id. -/
structure EndOutput where
  tasks : List Task
  events : List SocketEvent
  resultActiveTaskId : String
deriving DecidableEq

/-- The workedTimeSpan:end handler.  The client-supplied endTime is
    modelled as an optional instant: none stands for a missing or falsy
    value, in which case the server clock value now is stored. -/
def wtsEnd (st : ServerState) (username : String) (taskId spanId : Nat)
    (endTime : Option Int) (wasDisconnected : Bool) (indexInTasksOfDays : Int)
    (now : Int) : EndOutput :=
  if endNoop st username taskId spanId wasDisconnected then
    { tasks := st.tasks,
      events := sendResponse indexInTasksOfDays
        (currentActiveTaskId st.roomsStates username),
      resultActiveTaskId := currentActiveTaskId st.roomsStates username }
  else
    { tasks := endUpdate st.tasks taskId spanId (endTime.getD now),
      events := sendResponse indexInTasksOfDays "",
      resultActiveTaskId := "" }

/-- Helper of the roomState:update upsert: overwrites activeTaskId on the
    first document matching the room. -/
def setFirstRoomState (rs : List RoomState) (username v : String) :
    List RoomState :=
  match rs with
  | [] => []
  | r :: rest =>
    if r.room == username then { r with activeTaskId := v } :: rest
    else r :: setFirstRoomState rest username v

/-- The roomState:update handler: updateOne with upsert on the room of the
    user, storing the sent activeTaskId, with any falsy value (undefined
    or the empty string) stored as the empty sentinel. -/
def roomStateUpdate (rs : List RoomState) (username : String)
    (activeTaskId : Option String) : List RoomState :=
  if rs.any (fun r => r.room == username) then
    setFirstRoomState rs username (activeTaskId.getD "")
  else
    rs ++ [{ room := username, activeTaskId := activeTaskId.getD "" }]

/-- The roomState:read handler: the callback is invoked with the found
    document only when findOne returns one; the result lists the callback
    invocations of the call. -/
def roomStateRead (rs : List RoomState) (username : String) : List RoomState :=
  match findRoomState rs username with
  | some r => [r]
  | none => []

/-- Operation deleteOne on roomsStates filtered by the room field: removes
    the first matching document. -/
def deleteFirstRoomState (rs : List RoomState) (username : String) :
    List RoomState :=
  match rs with
  | [] => []
  | r :: rest =>
    if r.room == username then rest
    else r :: deleteFirstRoomState rest username

/-- Function deleteARoomState of the disconnect handler; the argument is
    the number of live connections left in the room of the user after this
    disconnect (a vanished room, undefined in the source, is modelled as
    0, both being falsy in the guard). -/
def deleteARoomState (rs : List RoomState) (username : String)
    (numberOfSocketsInARoom : Nat) : List RoomState :=
  if numberOfSocketsInARoom = 0 then deleteFirstRoomState rs username else rs

/-- The tasks:create handler: overwrites the doer field of the payload
    with the username of the socket and the date field with the server
    clock, inserts the document, acknowledges, then broadcasts tasksChange
    with day index 0 and no activeTaskId argument. -/
def tasksCreate (tasks : List Task) (newTask : Task) (username : String)
    (now : Int) : List Task × List SocketEvent :=
  (tasks ++ [{ newTask with doer := username, date := now }],
   [SocketEvent.ack, SocketEvent.tasksChange 0 none])

/-- One day in milliseconds, the oneDayInMs variable of the pipeline. -/
def oneDayInMs : Int := 24 * 60 * 60 * 1000

/-- Rendering dateToString with format Y-m-d under a fixed-offset
    timezone, modelled as the local calendar day number: the floor of the
    shifted instant divided by one day (Int division is floor division
    for a positive divisor). -/
def localDate (timeZone t : Int) : Int := (t + timeZone) / oneDayInMs

/-- Stage dateDiff in milliseconds between startTime and endTime: the
    signed difference; a span without endTime yields null, which the sum
    operator ignores, so it contributes 0. -/
def spanCompletedTime (s : WorkedTimeSpan) : Int :=
  match s.endTime with
  | some e => e - s.startTime
  | none => 0

/-- The completedTime of one task document: the sum over the mapped
    workedTimeSpans array. -/
def taskCompletedTime (t : Task) : Int :=
  (t.workedTimeSpans.map spanCompletedTime).sum

/-- The match stage: the tasks of the user whose date lies in the closed
    range from startDate to endDate. -/
def tasksInRange (tasks : List Task) (username : String)
    (startDate endDate : Int) : List Task :=
  tasks.filter (fun t =>
    t.doer == username && decide (startDate ≤ t.date) && decide (t.date ≤ endDate))

/-- One entry of the aggregation output: a local calendar day and the
    completed time reported for it. -/
structure DateCompletedTime where
  localDate : Int
  completedTime : Int
deriving DecidableEq

/-- The distinct local dates of the matched tasks, the group-stage keys. -/
def existingLocalDates (tasks : List Task) (username : String)
    (startDate endDate timeZone : Int) : List Int :=
  ((tasksInRange tasks username startDate endDate).map
    (fun t => localDate timeZone t.date)).dedup

/-- The group-stage sum: total completedTime of the given tasks whose
    local date is d. -/
def completedTimeOn (ts : List Task) (timeZone d : Int) : Int :=
  ((ts.filter (fun t => localDate timeZone t.date == d)).map taskCompletedTime).sum

/-- The existingDatesCompletedTimes facet: the sparse list with one entry
    per distinct local date of the in-range tasks of the user.  The
    group-stage output order is unspecified by the store; the merge below
    only looks entries up by localDate, so a canonical order is used. -/
def existingDatesCompletedTimes (tasks : List Task) (username : String)
    (startDate endDate timeZone : Int) : List DateCompletedTime :=
  (existingLocalDates tasks username startDate endDate timeZone).map
    (fun d => { localDate := d,
                completedTime := completedTimeOn
                  (tasksInRange tasks username startDate endDate) timeZone d })

/-- The allDatesInitialCompletedTimes list: a map over the range from 0 to
    n producing, per index, the local date of startDate plus index days
    and a completedTime of 0. -/
def allDatesInitialCompletedTimes (startDate : Int) (n : Nat) (timeZone : Int) :
    List DateCompletedTime :=
  (List.range n).map (fun i : Nat =>
    { localDate := localDate timeZone (startDate + (i : Int) * oneDayInMs),
      completedTime := 0 })

/-- The merge conditional: when the localDate of the dense bucket occurs
    in the sparse list, the sparse entry at its first index replaces the
    bucket; otherwise the bucket is kept. -/
def mergeEntry (existing : List DateCompletedTime) (e : DateCompletedTime) :
    DateCompletedTime :=
  match existing.find? (fun x => x.localDate == e.localDate) with
  | some x => x
  | none => e

/-- The allDatesCompletedTimes list, the reply of the
    totalCompletedTimes:read handler. -/
def allDatesCompletedTimes (tasks : List Task) (username : String)
    (startDate endDate : Int) (n : Nat) (timeZone : Int) :
    List DateCompletedTime :=
  (allDatesInitialCompletedTimes startDate n timeZone).map
    (mergeEntry (existingDatesCompletedTimes tasks username startDate endDate timeZone))

/-- The total duration the reply reports: the sum of completedTime over
    the returned buckets. -/
def reportedTotal (tasks : List Task) (username : String)
    (startDate endDate : Int) (n : Nat) (timeZone : Int) : Int :=
  ((allDatesCompletedTimes tasks username startDate endDate n timeZone).map
    DateCompletedTime.completedTime).sum

/-- Written from the words of claim C4, for comparison with
    spanCompletedTime: the per-interval contribution the claim asserts,
    the maximum of 0 and the difference of endTime and startTime, an open
    interval contributing 0. -/
def claimSpanContribution (s : WorkedTimeSpan) : Int :=
  match s.endTime with
  | some e => max 0 (e - s.startTime)
  | none => 0

/-- Written from the words of claim C4: the total it asserts, summing
    claimSpanContribution over every interval of every in-range task. -/
def claimTotal (tasks : List Task) (username : String)
    (startDate endDate : Int) : Int :=
  ((tasksInRange tasks username startDate endDate).map
    (fun t => (t.workedTimeSpans.map claimSpanContribution).sum)).sum

/-! Helper lemmas about the end-handler update. -/

theorem closeFirstSpan_any (spans : List WorkedTimeSpan) (spanId : Nat) (e : Int) :
    ((closeFirstSpan spans spanId e).any (fun s => s.spanId == spanId))
      = spans.any (fun s => s.spanId == spanId) := by
  induction spans with
  | nil => rfl
  | cons s rest ih =>
    cases hs : (s.spanId == spanId) with
    | false => simp [closeFirstSpan, hs, ih]
    | true => simp [closeFirstSpan, hs]

theorem closeFirstSpan_find (spans : List WorkedTimeSpan) (spanId : Nat) (e : Int) :
    ((closeFirstSpan spans spanId e).find? (fun s => s.spanId == spanId))
      = (spans.find? (fun s => s.spanId == spanId)).map
          (fun s => { s with endTime := some e }) := by
  induction spans with
  | nil => rfl
  | cons s rest ih =>
    cases hs : (s.spanId == spanId) with
    | false => simp [closeFirstSpan, hs, ih]
    | true => simp [closeFirstSpan, hs]

theorem taskSpanFilter_close (taskId spanId : Nat) (e : Int) (t : Task) :
    taskSpanFilter taskId spanId
        { t with workedTimeSpans := closeFirstSpan t.workedTimeSpans spanId e }
      = taskSpanFilter taskId spanId t := by
  simp [taskSpanFilter, closeFirstSpan_any]

theorem find_endUpdate (tasks : List Task) (taskId spanId : Nat) (e : Int) :
    ((endUpdate tasks taskId spanId e).find? (taskSpanFilter taskId spanId))
      = (tasks.find? (taskSpanFilter taskId spanId)).map
          (fun t => { t with workedTimeSpans := closeFirstSpan t.workedTimeSpans spanId e }) := by
  induction tasks with
  | nil => rfl
  | cons t rest ih =>
    cases hf : taskSpanFilter taskId spanId t with
    | false =>
      rw [endUpdate]
      simp only [hf, Bool.false_eq_true, if_false]
      rw [List.find?_cons_of_neg _ (by simp [hf]),
        List.find?_cons_of_neg _ (by simp [hf]), ih]
    | true =>
      rw [endUpdate]
      simp only [hf, if_true]
      rw [List.find?_cons_of_pos _ (by simp [taskSpanFilter_close, hf]),
        List.find?_cons_of_pos _ hf]
      rfl

theorem findTaskProjected_endUpdate (tasks : List Task) (taskId spanId : Nat)
    (e : Int) :
    findTaskProjected (endUpdate tasks taskId spanId e) taskId spanId
      = (findTaskProjected tasks taskId spanId).map
          (fun ts =>
            ({ ts.1 with workedTimeSpans := closeFirstSpan ts.1.workedTimeSpans spanId e },
             { ts.2 with endTime := some e })) := by
  unfold findTaskProjected
  rw [find_endUpdate]
  cases tasks.find? (taskSpanFilter taskId spanId) with
  | none => rfl
  | some t =>
    cases hfind : t.workedTimeSpans.find? (fun s => s.spanId == spanId) with
    | none => simp [closeFirstSpan_find, hfind]
    | some s => simp [closeFirstSpan_find, hfind]

theorem getSpan_endUpdate (tasks : List Task) (taskId spanId : Nat) (e : Int) :
    getSpan (endUpdate tasks taskId spanId e) taskId spanId
      = (getSpan tasks taskId spanId).map (fun s => { s with endTime := some e }) := by
  unfold getSpan
  rw [findTaskProjected_endUpdate]
  cases findTaskProjected tasks taskId spanId with
  | none => rfl
  | some ts => rfl

theorem endNoop_true_of_closed (st : ServerState) (username : String)
    (taskId spanId : Nat) (wasDisconnected : Bool) (s : WorkedTimeSpan)
    (hspan : getSpan st.tasks taskId spanId = some s)
    (hclosed : s.endTime.isSome = true) :
    endNoop st username taskId spanId wasDisconnected = true := by
  unfold getSpan at hspan
  unfold endNoop
  cases hfp : findTaskProjected st.tasks taskId spanId with
  | none => rw [hfp] at hspan; simp at hspan
  | some ts =>
    rw [hfp] at hspan
    cases ts with
    | mk t s2 =>
      have hs2 : s2 = s := by simpa using hspan
      subst hs2
      simp [hclosed]

theorem endNoop_false_of_open (st : ServerState) (username : String)
    (taskId spanId : Nat) (s : WorkedTimeSpan)
    (hspan : getSpan st.tasks taskId spanId = some s)
    (hopen : s.endTime = none) :
    endNoop st username taskId spanId false = false := by
  unfold getSpan at hspan
  unfold endNoop
  cases hfp : findTaskProjected st.tasks taskId spanId with
  | none => rw [hfp] at hspan; simp at hspan
  | some ts =>
    rw [hfp] at hspan
    cases ts with
    | mk t s2 =>
      have hs2 : s2 = s := by simpa using hspan
      subst hs2
      simp [hopen]


/-! Claim theorems for the end handler and the small handlers. -/

theorem sendResponse_shape (indexInTasksOfDays : Int) (a : String) :
    (sendResponse indexInTasksOfDays a).head? = some SocketEvent.ack ∧
    ((sendResponse indexInTasksOfDays a).tail.all
      (fun ev => match ev with
        | SocketEvent.tasksChange _ _ => true
        | _ => false)) = true := by
  unfold sendResponse
  by_cases h : (0:Int) ≤ indexInTasksOfDays <;> simp [h]

/-- C6: for every workedTimeSpan:end call the acknowledgement callback is
    invoked strictly before any tasksChange broadcast: the first emitted
    event is the acknowledgement, and every event after it is a
    broadcast. -/
theorem wtsEnd_ack_before_broadcast (st : ServerState) (username : String)
    (taskId spanId : Nat) (endTime : Option Int) (wasDisconnected : Bool)
    (indexInTasksOfDays now : Int) :
    (wtsEnd st username taskId spanId endTime wasDisconnected
        indexInTasksOfDays now).events.head? = some SocketEvent.ack ∧
    ((wtsEnd st username taskId spanId endTime wasDisconnected
        indexInTasksOfDays now).events.tail.all
      (fun ev => match ev with
        | SocketEvent.tasksChange _ _ => true
        | _ => false)) = true := by
  unfold wtsEnd
  split
  · exact sendResponse_shape _ _
  · exact sendResponse_shape _ _

/-- C8: every end call hitting a no-op condition still acknowledges
    success, returns the current registry activeTaskId as the resulting
    active task id, and leaves the tasks collection unchanged; the
    conflict is not surfaced as an error. -/
theorem wtsEnd_noop_acknowledges_success (st : ServerState) (username : String)
    (taskId spanId : Nat) (endTime : Option Int) (wasDisconnected : Bool)
    (indexInTasksOfDays now : Int)
    (h : endNoop st username taskId spanId wasDisconnected = true) :
    (wtsEnd st username taskId spanId endTime wasDisconnected
        indexInTasksOfDays now).tasks = st.tasks ∧
    (wtsEnd st username taskId spanId endTime wasDisconnected
        indexInTasksOfDays now).events.head? = some SocketEvent.ack ∧
    (wtsEnd st username taskId spanId endTime wasDisconnected
        indexInTasksOfDays now).resultActiveTaskId
      = currentActiveTaskId st.roomsStates username := by
  unfold wtsEnd
  rw [if_pos h]
  exact ⟨rfl, rfl, rfl⟩

/-- C8 witness: the no-op theorem applied at a concrete state whose task
    is absent while the registry holds an active task. -/
theorem wtsEnd_noop_acknowledges_success_witness :
    (wtsEnd ⟨[], [⟨"u", "t1"⟩]⟩ "u" 1 2 none false 3 7).tasks
        = (⟨[], [⟨"u", "t1"⟩]⟩ : ServerState).tasks ∧
    (wtsEnd ⟨[], [⟨"u", "t1"⟩]⟩ "u" 1 2 none false 3 7).events.head?
        = some SocketEvent.ack ∧
    (wtsEnd ⟨[], [⟨"u", "t1"⟩]⟩ "u" 1 2 none false 3 7).resultActiveTaskId
        = currentActiveTaskId (⟨[], [⟨"u", "t1"⟩]⟩ : ServerState).roomsStates "u" :=
  wtsEnd_noop_acknowledges_success ⟨[], [⟨"u", "t1"⟩]⟩ "u" 1 2 none false 3 7
    (by decide)

/-- C9: the roomState:read handler replies only when a registry entry for
    the user exists: its callback invocations are exactly the content of
    the findOne result, so an absent entry yields no reply at all rather
    than an explicit empty reply. -/
theorem roomStateRead_reply_iff_entry (rs : List RoomState) (username : String) :
    roomStateRead rs username = (findRoomState rs username).toList := by
  unfold roomStateRead
  cases findRoomState rs username with
  | none => rfl
  | some r => rfl

/-- C10: tasks:create stores the task with doer set to the authenticated
    username and date set to the server clock, overwriting the payload
    values of those fields and keeping the rest of the payload. -/
theorem tasksCreate_sets_owner_and_date (tasks : List Task) (newTask : Task)
    (username : String) (now : Int) :
    (tasksCreate tasks newTask username now).1
        = tasks ++ [{ newTask with doer := username, date := now }] ∧
    ({ newTask with doer := username, date := now } : Task).doer = username ∧
    ({ newTask with doer := username, date := now } : Task).date = now ∧
    ({ newTask with doer := username, date := now } : Task).name = newTask.name ∧
    ({ newTask with doer := username, date := now } : Task).workedTimeSpans
        = newTask.workedTimeSpans :=
  ⟨rfl, rfl, rfl, rfl, rfl⟩

/-- C3 counterexample: an end call that resolves as a no-op because the
    matched interval is already closed, made with indexInTasksOfDays 0,
    changes nothing yet still publishes a tasksChange broadcast to the
    channel of the user. -/
theorem wtsEnd_noop_broadcast_counterexample :
    endNoop ⟨[⟨1, "u", "t", 0, [⟨10, 0, some 5⟩]⟩], []⟩ "u" 1 10 false = true ∧
    (wtsEnd ⟨[⟨1, "u", "t", 0, [⟨10, 0, some 5⟩]⟩], []⟩ "u" 1 10 none false 0 99).tasks
        = [⟨1, "u", "t", 0, [⟨10, 0, some 5⟩]⟩] ∧
    (wtsEnd ⟨[⟨1, "u", "t", 0, [⟨10, 0, some 5⟩]⟩], []⟩ "u" 1 10 none false 0 99).events
        = [SocketEvent.ack, SocketEvent.tasksChange 0 (some "")] := by decide

/-- C3 (amended): an end call that resolves as a no-op publishes no
    tasksChange broadcast exactly when its indexInTasksOfDays argument is
    negative: only the acknowledgement is delivered then; with a
    non-negative index the handler still emits the broadcast after the
    acknowledgement, carrying the current registry activeTaskId. -/
theorem wtsEnd_noop_broadcast_policy (st : ServerState)
    (username : String) (taskId spanId : Nat) (endTime : Option Int)
    (wasDisconnected : Bool) (indexInTasksOfDays now : Int)
    (h : endNoop st username taskId spanId wasDisconnected = true) :
    (indexInTasksOfDays < 0 →
      (wtsEnd st username taskId spanId endTime wasDisconnected
          indexInTasksOfDays now).events = [SocketEvent.ack]) ∧
    (0 ≤ indexInTasksOfDays →
      (wtsEnd st username taskId spanId endTime wasDisconnected
          indexInTasksOfDays now).events
        = [SocketEvent.ack,
           SocketEvent.tasksChange indexInTasksOfDays
             (some (currentActiveTaskId st.roomsStates username))]) := by
  unfold wtsEnd
  rw [if_pos h]
  unfold sendResponse
  constructor
  · intro hidx
    rw [if_neg (by omega)]
  · intro hidx
    rw [if_pos hidx]

/-- C3 witness: the amended theorem applied at a concrete no-op call with
    index 0, whose broadcast conjunct is discharged non-vacuously. -/
theorem wtsEnd_noop_broadcast_policy_witness :
    (((0 : Int) < 0 →
      (wtsEnd ⟨[⟨1, "u", "t", 0, [⟨10, 0, some 5⟩]⟩], [⟨"u", "t1"⟩]⟩
          "u" 1 10 none false 0 99).events = [SocketEvent.ack]) ∧
    ((0 : Int) ≤ 0 →
      (wtsEnd ⟨[⟨1, "u", "t", 0, [⟨10, 0, some 5⟩]⟩], [⟨"u", "t1"⟩]⟩
          "u" 1 10 none false 0 99).events
        = [SocketEvent.ack,
           SocketEvent.tasksChange 0
             (some (currentActiveTaskId
               (⟨[⟨1, "u", "t", 0, [⟨10, 0, some 5⟩]⟩], [⟨"u", "t1"⟩]⟩ :
                 ServerState).roomsStates "u"))])) :=
  wtsEnd_noop_broadcast_policy ⟨[⟨1, "u", "t", 0, [⟨10, 0, some 5⟩]⟩], [⟨"u", "t1"⟩]⟩
    "u" 1 10 none false 0 99 (by decide)

/-- C1: while the registry holds a non-empty activeTaskId for the user, an
    end call with wasDisconnected true is a no-op that leaves the tasks
    unchanged; a subsequent end call for the same open interval with
    wasDisconnected false succeeds and writes its endTime. -/
theorem wtsEnd_reconnection_guard (st : ServerState) (username : String)
    (taskId spanId : Nat) (endTime endTime2 : Option Int)
    (indexInTasksOfDays indexInTasksOfDays2 now now2 : Int) (s : WorkedTimeSpan)
    (hreg : activeTaskIdTruthy
        ((findRoomState st.roomsStates username).map RoomState.activeTaskId) = true)
    (hspan : getSpan st.tasks taskId spanId = some s)
    (hopen : s.endTime = none) :
    (wtsEnd st username taskId spanId endTime true indexInTasksOfDays now).tasks
        = st.tasks ∧
    getSpan (wtsEnd st username taskId spanId endTime2 false
        indexInTasksOfDays2 now2).tasks taskId spanId
      = some { s with endTime := some (endTime2.getD now2) } := by
  constructor
  · have h : endNoop st username taskId spanId true = true := by
      unfold endNoop
      rw [hreg]
      simp
    unfold wtsEnd
    rw [if_pos h]
  · have h : endNoop st username taskId spanId false = false :=
      endNoop_false_of_open st username taskId spanId s hspan hopen
    unfold wtsEnd
    rw [if_neg (by simp [h])]
    show getSpan (endUpdate st.tasks taskId spanId (endTime2.getD now2)) taskId spanId = _
    rw [getSpan_endUpdate, hspan]
    rfl

/-- C1 witness: the reconnection-guard theorem applied at a concrete state
    with one open interval and a registry entry holding t1. -/
theorem wtsEnd_reconnection_guard_witness :
    (wtsEnd ⟨[⟨1, "u", "t", 0, [⟨10, 0, none⟩]⟩], [⟨"u", "t1"⟩]⟩
        "u" 1 10 (some 5) true 0 99).tasks
      = (⟨[⟨1, "u", "t", 0, [⟨10, 0, none⟩]⟩], [⟨"u", "t1"⟩]⟩ : ServerState).tasks ∧
    getSpan (wtsEnd ⟨[⟨1, "u", "t", 0, [⟨10, 0, none⟩]⟩], [⟨"u", "t1"⟩]⟩
        "u" 1 10 (some 6) false 0 98).tasks 1 10 = some ⟨10, 0, some 6⟩ :=
  wtsEnd_reconnection_guard ⟨[⟨1, "u", "t", 0, [⟨10, 0, none⟩]⟩], [⟨"u", "t1"⟩]⟩
    "u" 1 10 (some 5) (some 6) 0 0 99 98 ⟨10, 0, none⟩
    (by decide) (by decide) rfl


/-! Branch lemmas for the end handler, shared by several claims. -/

theorem wtsEnd_noop_spec (st : ServerState) (username : String)
    (taskId spanId : Nat) (endTime : Option Int) (wasDisconnected : Bool)
    (indexInTasksOfDays now : Int)
    (h : endNoop st username taskId spanId wasDisconnected = true) :
    wtsEnd st username taskId spanId endTime wasDisconnected indexInTasksOfDays now
      = { tasks := st.tasks,
          events := sendResponse indexInTasksOfDays
            (currentActiveTaskId st.roomsStates username),
          resultActiveTaskId := currentActiveTaskId st.roomsStates username } := by
  unfold wtsEnd
  rw [if_pos h]

theorem wtsEnd_success_spec (st : ServerState) (username : String)
    (taskId spanId : Nat) (endTime : Option Int) (wasDisconnected : Bool)
    (indexInTasksOfDays now : Int)
    (h : endNoop st username taskId spanId wasDisconnected = false) :
    wtsEnd st username taskId spanId endTime wasDisconnected indexInTasksOfDays now
      = { tasks := endUpdate st.tasks taskId spanId (endTime.getD now),
          events := sendResponse indexInTasksOfDays "",
          resultActiveTaskId := "" } := by
  unfold wtsEnd
  rw [if_neg (by simp [h])]

/-- C2 counterexample: with the registry still holding t1, the first close
    of an open interval returns the empty resulting activeTaskId, while
    the second close of the same interval is a no-op returning t1, a
    different resulting activeTaskId. -/
theorem wtsEnd_double_close_result_counterexample :
    (wtsEnd ⟨[⟨1, "u", "t", 0, [⟨10, 0, none⟩]⟩], [⟨"u", "t1"⟩]⟩
        "u" 1 10 (some 5) false 0 99).resultActiveTaskId = "" ∧
    (wtsEnd ⟨(wtsEnd ⟨[⟨1, "u", "t", 0, [⟨10, 0, none⟩]⟩], [⟨"u", "t1"⟩]⟩
          "u" 1 10 (some 5) false 0 99).tasks, [⟨"u", "t1"⟩]⟩
        "u" 1 10 (some 5) false 0 99).tasks
      = (wtsEnd ⟨[⟨1, "u", "t", 0, [⟨10, 0, none⟩]⟩], [⟨"u", "t1"⟩]⟩
          "u" 1 10 (some 5) false 0 99).tasks ∧
    (wtsEnd ⟨(wtsEnd ⟨[⟨1, "u", "t", 0, [⟨10, 0, none⟩]⟩], [⟨"u", "t1"⟩]⟩
          "u" 1 10 (some 5) false 0 99).tasks, [⟨"u", "t1"⟩]⟩
        "u" 1 10 (some 5) false 0 99).resultActiveTaskId = "t1" ∧
    ("t1" : String) ≠ "" := by decide

/-- C2 (amended): closing the same open interval twice changes state
    exactly once: the first call writes endTime and returns the empty
    resulting activeTaskId; the second call is a no-op leaving the tasks
    unchanged and returning the current registry activeTaskId, which
    equals the first result exactly when the registry reports no active
    task. -/
theorem wtsEnd_double_close_idempotent (st : ServerState) (username : String)
    (taskId spanId : Nat) (endTime endTime2 : Option Int) (wd2 : Bool)
    (idx idx2 now now2 : Int) (s : WorkedTimeSpan) (out1 : EndOutput)
    (hspan : getSpan st.tasks taskId spanId = some s)
    (hopen : s.endTime = none)
    (hout1 : wtsEnd st username taskId spanId endTime false idx now = out1) :
    out1.resultActiveTaskId = "" ∧
    getSpan out1.tasks taskId spanId
        = some { s with endTime := some (endTime.getD now) } ∧
    (wtsEnd ⟨out1.tasks, st.roomsStates⟩ username taskId spanId endTime2 wd2
        idx2 now2).tasks = out1.tasks ∧
    (wtsEnd ⟨out1.tasks, st.roomsStates⟩ username taskId spanId endTime2 wd2
        idx2 now2).resultActiveTaskId
      = currentActiveTaskId st.roomsStates username ∧
    ((wtsEnd ⟨out1.tasks, st.roomsStates⟩ username taskId spanId endTime2 wd2
        idx2 now2).resultActiveTaskId = out1.resultActiveTaskId
      ↔ currentActiveTaskId st.roomsStates username = "") := by
  subst hout1
  have h1 : endNoop st username taskId spanId false = false :=
    endNoop_false_of_open st username taskId spanId s hspan hopen
  rw [wtsEnd_success_spec st username taskId spanId endTime false idx now h1]
  dsimp only
  have hclosed : getSpan (endUpdate st.tasks taskId spanId (endTime.getD now))
      taskId spanId = some { s with endTime := some (endTime.getD now) } := by
    rw [getSpan_endUpdate, hspan]
    rfl
  have h2 : endNoop ⟨endUpdate st.tasks taskId spanId (endTime.getD now),
      st.roomsStates⟩ username taskId spanId wd2 = true :=
    endNoop_true_of_closed _ username taskId spanId wd2 _ hclosed rfl
  rw [wtsEnd_noop_spec _ username taskId spanId endTime2 wd2 idx2 now2 h2]
  dsimp only
  exact ⟨rfl, hclosed, rfl, rfl, Iff.rfl⟩

/-- C2 witness: the amended theorem applied at a concrete state with one
    open interval and no registry entry. -/
theorem wtsEnd_double_close_idempotent_witness :
    (⟨[⟨1, "u", "t", 0, [⟨10, 0, some 5⟩]⟩],
        [SocketEvent.ack, SocketEvent.tasksChange 0 (some "")], ""⟩ :
      EndOutput).resultActiveTaskId = "" ∧
    getSpan [⟨1, "u", "t", 0, [⟨10, 0, some 5⟩]⟩] 1 10 = some ⟨10, 0, some 5⟩ ∧
    (wtsEnd ⟨[⟨1, "u", "t", 0, [⟨10, 0, some 5⟩]⟩], []⟩
        "u" 1 10 (some 7) false 0 98).tasks
      = [⟨1, "u", "t", 0, [⟨10, 0, some 5⟩]⟩] ∧
    (wtsEnd ⟨[⟨1, "u", "t", 0, [⟨10, 0, some 5⟩]⟩], []⟩
        "u" 1 10 (some 7) false 0 98).resultActiveTaskId
      = currentActiveTaskId ([] : List RoomState) "u" ∧
    ((wtsEnd ⟨[⟨1, "u", "t", 0, [⟨10, 0, some 5⟩]⟩], []⟩
        "u" 1 10 (some 7) false 0 98).resultActiveTaskId
      = (⟨[⟨1, "u", "t", 0, [⟨10, 0, some 5⟩]⟩],
          [SocketEvent.ack, SocketEvent.tasksChange 0 (some "")], ""⟩ :
        EndOutput).resultActiveTaskId
      ↔ currentActiveTaskId ([] : List RoomState) "u" = "") :=
  wtsEnd_double_close_idempotent ⟨[⟨1, "u", "t", 0, [⟨10, 0, none⟩]⟩], []⟩ "u" 1 10
    (some 5) (some 7) false 0 0 99 98 ⟨10, 0, none⟩
    ⟨[⟨1, "u", "t", 0, [⟨10, 0, some 5⟩]⟩],
      [SocketEvent.ack, SocketEvent.tasksChange 0 (some "")], ""⟩
    (by decide) rfl (by decide)


/-! Registry lifecycle lemmas. -/

theorem findRoomState_deleteFirst (rs : List RoomState) (username : String)
    (h : rs.countP (fun r => r.room == username) ≤ 1) :
    findRoomState (deleteFirstRoomState rs username) username = none := by
  induction rs with
  | nil => rfl
  | cons r rest ih =>
    cases hr : (r.room == username) with
    | true =>
      have hrest : rest.countP (fun x => x.room == username) = 0 := by
        rw [List.countP_cons] at h
        simp only [hr, if_true] at h
        omega
      unfold deleteFirstRoomState
      rw [if_pos hr]
      unfold findRoomState
      rw [List.find?_eq_none]
      intro x hx
      have hx2 := (List.countP_eq_zero.mp hrest) x hx
      simpa using hx2
    | false =>
      have h2 : rest.countP (fun x => x.room == username) ≤ 1 := by
        rw [List.countP_cons] at h
        simp only [hr, Bool.false_eq_true, if_false] at h
        omega
      unfold deleteFirstRoomState
      rw [if_neg (by simp [hr])]
      unfold findRoomState
      rw [List.find?_cons_of_neg _ (by simp [hr])]
      exact ih h2

theorem setFirstRoomState_any (rs : List RoomState) (username v : String) :
    ((setFirstRoomState rs username v).any (fun r => r.room == username))
      = rs.any (fun r => r.room == username) := by
  induction rs with
  | nil => rfl
  | cons r rest ih =>
    cases hr : (r.room == username) with
    | true => simp [setFirstRoomState, hr]
    | false => simp [setFirstRoomState, hr, ih]

/-- C7: a disconnect that leaves zero live connections in the channel of
    the user deletes the registry entry of that user; a disconnect that
    leaves at least one sibling connection leaves the registry unchanged;
    and after any roomState:update the entry is present. -/
theorem registry_lifecycle (rs : List RoomState) (username : String)
    (n : Nat) (a : Option String)
    (hunique : rs.countP (fun r => r.room == username) ≤ 1) :
    findRoomState (deleteARoomState rs username 0) username = none ∧
    (n ≠ 0 → deleteARoomState rs username n = rs) ∧
    (findRoomState (roomStateUpdate rs username a) username).isSome = true := by
  refine ⟨?_, ?_, ?_⟩
  · unfold deleteARoomState
    rw [if_pos rfl]
    exact findRoomState_deleteFirst rs username hunique
  · intro hn
    unfold deleteARoomState
    rw [if_neg hn]
  · unfold roomStateUpdate
    cases hany : rs.any (fun r => r.room == username) with
    | true =>
      rw [if_pos rfl]
      have hany2 : ((setFirstRoomState rs username (a.getD "")).any
          (fun r => r.room == username)) = true := by
        rw [setFirstRoomState_any]
        exact hany
      unfold findRoomState
      simp only [List.find?_isSome]
      simpa using List.any_eq_true.mp hany2
    | false =>
      rw [if_neg (by simp)]
      unfold findRoomState
      simp only [List.find?_isSome]
      exact ⟨{ room := username, activeTaskId := a.getD "" },
        List.mem_append_right rs (by simp), by simp⟩

/-- C7 witness: the lifecycle theorem applied at a registry holding one
    entry for the user, a disconnect leaving 2 connections, and an update
    reporting task x. -/
theorem registry_lifecycle_witness :
    findRoomState (deleteARoomState [⟨"u", "t1"⟩] "u" 0) "u" = none ∧
    ((2 : Nat) ≠ 0 → deleteARoomState [⟨"u", "t1"⟩] "u" 2 = [⟨"u", "t1"⟩]) ∧
    (findRoomState (roomStateUpdate [⟨"u", "t1"⟩] "u" (some "x")) "u").isSome
      = true :=
  registry_lifecycle [⟨"u", "t1"⟩] "u" 2 (some "x") (by decide)


/-! Aggregator lemmas. -/

theorem localDate_add_days (timeZone startDate : Int) (i : Nat) :
    localDate timeZone (startDate + (i : Int) * oneDayInMs)
      = localDate timeZone startDate + (i : Int) := by
  unfold localDate oneDayInMs
  have h : startDate + (i : Int) * (24 * 60 * 60 * 1000) + timeZone
      = startDate + timeZone + (i : Int) * (24 * 60 * 60 * 1000) := by ring
  rw [h, Int.add_mul_ediv_right _ _ (by norm_num)]

theorem allDatesInitial_localDates (startDate : Int) (n : Nat) (timeZone : Int) :
    (allDatesInitialCompletedTimes startDate n timeZone).map
        DateCompletedTime.localDate
      = (List.range n).map (fun i : Nat => localDate timeZone startDate + (i : Int)) := by
  unfold allDatesInitialCompletedTimes
  rw [List.map_map]
  apply List.map_congr_left
  intro i _
  exact localDate_add_days timeZone startDate i

theorem find_sparse (ds : List Int) (g : Int → Int) (d : Int) :
    ((ds.map (fun x =>
        ({ localDate := x, completedTime := g x } : DateCompletedTime))).find?
          (fun x => x.localDate == d))
      = (ds.find? (fun x => x == d)).map
          (fun x => ({ localDate := x, completedTime := g x } : DateCompletedTime)) := by
  rw [List.find?_map]
  rfl

theorem find_eq_self_of_mem (ds : List Int) (d : Int) (h : d ∈ ds) :
    ds.find? (fun x => x == d) = some d := by
  induction ds with
  | nil => cases h
  | cons x rest ih =>
    by_cases hx : x = d
    · subst hx
      exact List.find?_cons_of_pos _ (by simp)
    · rw [List.find?_cons_of_neg _ (by simp [hx])]
      refine ih ?_
      cases List.mem_cons.mp h with
      | inl h2 => exact absurd h2.symm hx
      | inr h2 => exact h2

theorem completedTimeOn_zero_of_not_existing (tasks : List Task)
    (username : String) (startDate endDate timeZone d : Int)
    (hd : d ∉ existingLocalDates tasks username startDate endDate timeZone) :
    completedTimeOn (tasksInRange tasks username startDate endDate) timeZone d
      = 0 := by
  unfold completedTimeOn
  rw [List.filter_eq_nil_iff.mpr]
  · rfl
  · intro t ht hc
    apply hd
    unfold existingLocalDates
    rw [List.mem_dedup]
    exact List.mem_map.mpr ⟨t, ht, by simpa using hc⟩

theorem mergeEntry_sparse_eval (tasks : List Task) (username : String)
    (startDate endDate timeZone d : Int) :
    mergeEntry (existingDatesCompletedTimes tasks username startDate endDate timeZone)
        { localDate := d, completedTime := 0 }
      = { localDate := d,
          completedTime := completedTimeOn
            (tasksInRange tasks username startDate endDate) timeZone d } := by
  unfold mergeEntry existingDatesCompletedTimes
  rw [find_sparse]
  by_cases hd : d ∈ existingLocalDates tasks username startDate endDate timeZone
  · rw [find_eq_self_of_mem _ _ hd]
    rfl
  · have hnone : (existingLocalDates tasks username startDate endDate
        timeZone).find? (fun x => x == d) = none :=
      List.find?_eq_none.mpr (fun x hx hb => hd ((beq_iff_eq.mp hb) ▸ hx))
    rw [hnone,
      completedTimeOn_zero_of_not_existing tasks username startDate endDate timeZone d hd]
    rfl

theorem sum_map_add {α : Type} (l : List α) (f g : α → Int) :
    (l.map (fun x => f x + g x)).sum = (l.map f).sum + (l.map g).sum := by
  induction l with
  | nil => simp
  | cons x xs ih =>
    simp only [List.map_cons, List.sum_cons, ih]
    ring

theorem sum_map_ite_eq (k c : Int) :
    ∀ (ds : List Int), ds.Nodup → k ∈ ds →
      (ds.map (fun d => if k = d then c else 0)).sum = c := by
  intro ds
  induction ds with
  | nil =>
    intro _ h
    cases h
  | cons d rest ih =>
    intro hnd hmem
    by_cases hk : k = d
    · simp only [List.map_cons, List.sum_cons, if_pos hk]
      have hzero : (rest.map (fun x => if k = x then c else 0)).sum = 0 := by
        apply List.sum_eq_zero
        intro v hv
        rcases List.mem_map.mp hv with ⟨y, hy, hvy⟩
        have hky : ¬ k = y := by
          intro he
          exact (List.nodup_cons.mp hnd).1 (by rw [← hk, he]; exact hy)
        rw [← hvy, if_neg hky]
      rw [hzero]
      ring
    · have hmem2 : k ∈ rest := by
        cases List.mem_cons.mp hmem with
        | inl h => exact absurd h hk
        | inr h => exact h
      simp only [List.map_cons, List.sum_cons, if_neg hk]
      rw [ih (List.nodup_cons.mp hnd).2 hmem2]
      ring

theorem sum_partition {α : Type} (key : α → Int) (f : α → Int) (ds : List Int) :
    ∀ (l : List α), ds.Nodup → (∀ x ∈ l, key x ∈ ds) →
      (ds.map (fun d => ((l.filter (fun x => key x == d)).map f).sum)).sum
        = (l.map f).sum := by
  intro l
  induction l with
  | nil =>
    intro _ _
    simp
  | cons x xs ih =>
    intro hnd hcov
    have hx : key x ∈ ds := hcov x (List.mem_cons_self x xs)
    have hcov2 : ∀ y ∈ xs, key y ∈ ds := fun y hy => hcov y (List.mem_cons_of_mem x hy)
    have hfil : ∀ d ∈ ds,
        (((x :: xs).filter (fun y => key y == d)).map f).sum
          = (if key x = d then f x else 0)
            + ((xs.filter (fun y => key y == d)).map f).sum := by
      intro d _
      by_cases h : key x = d
      · rw [List.filter_cons_of_pos (by simpa using h), if_pos h]
        simp
      · rw [List.filter_cons_of_neg (by simpa using h), if_neg h]
        ring
    rw [List.map_congr_left hfil, sum_map_add,
      sum_map_ite_eq (key x) (f x) ds hnd hx, ih hnd hcov2]
    simp


/-- C5: the totalCompletedTimes reply has exactly n buckets, bucket i
    carrying the local date of startDate plus i days, in chronological
    order; a bucket whose local date occurs among the sparse per-date sums
    is replaced by the sparse entry, and every other bucket keeps
    completedTime 0. -/
theorem aggregator_zero_fill (tasks : List Task) (username : String)
    (startDate endDate : Int) (n : Nat) (timeZone : Int) :
    (allDatesCompletedTimes tasks username startDate endDate n timeZone).length = n ∧
    ∀ i : Nat, i < n →
      (allDatesCompletedTimes tasks username startDate endDate n timeZone)[i]?
        = some (if localDate timeZone startDate + (i : Int)
              ∈ existingLocalDates tasks username startDate endDate timeZone then
            { localDate := localDate timeZone startDate + (i : Int),
              completedTime := completedTimeOn
                (tasksInRange tasks username startDate endDate) timeZone
                (localDate timeZone startDate + (i : Int)) }
          else
            { localDate := localDate timeZone startDate + (i : Int),
              completedTime := 0 }) := by
  constructor
  · simp [allDatesCompletedTimes, allDatesInitialCompletedTimes]
  · intro i hi
    unfold allDatesCompletedTimes allDatesInitialCompletedTimes
    rw [List.getElem?_map, List.getElem?_map, List.getElem?_range hi]
    simp only [Option.map_some']
    rw [localDate_add_days, mergeEntry_sparse_eval]
    by_cases hd : localDate timeZone startDate + (i : Int)
        ∈ existingLocalDates tasks username startDate endDate timeZone
    · rw [if_pos hd]
    · rw [if_neg hd,
        completedTimeOn_zero_of_not_existing tasks username startDate endDate
          timeZone _ hd]

/-- C4 counterexample: first, a task whose only interval has endTime
    before startTime: the total the claim asserts, clamping each interval
    at 0, is 0, while the code reports the signed difference -6; second,
    a request whose bucket count 0 leaves an in-range closed interval of
    duration 5 out of every bucket, so the reported total 0 misses it. -/
theorem aggregator_negative_span_counterexample :
    reportedTotal [⟨1, "u", "t", 0, [⟨10, 10, some 4⟩]⟩] "u" 0 0 1 0 = -6 ∧
    claimTotal [⟨1, "u", "t", 0, [⟨10, 10, some 4⟩]⟩] "u" 0 0 = 0 ∧
    ((-6 : Int) ≠ 0) ∧
    reportedTotal [⟨1, "u", "t", 0, [⟨10, 0, some 5⟩]⟩] "u" 0 0 0 0 = 0 ∧
    ((tasksInRange [⟨1, "u", "t", 0, [⟨10, 0, some 5⟩]⟩] "u" 0 0).map
        taskCompletedTime).sum = 5 ∧
    ((0 : Int) ≠ 5) := by decide

/-- C4 (amended): each closed interval contributes the signed difference
    of endTime and startTime, an open interval contributing 0, and
    whenever every in-range task has its local creation date among the n
    dense bucket dates, the total reported over the buckets equals the sum
    of those contributions over the in-range tasks of the user. -/
theorem aggregator_conservation (tasks : List Task) (username : String)
    (startDate endDate : Int) (n : Nat) (timeZone : Int)
    (hcov : ∀ t ∈ tasksInRange tasks username startDate endDate,
      localDate timeZone t.date
        ∈ (allDatesInitialCompletedTimes startDate n timeZone).map
            DateCompletedTime.localDate) :
    reportedTotal tasks username startDate endDate n timeZone
      = ((tasksInRange tasks username startDate endDate).map taskCompletedTime).sum := by
  have hnd : ((List.range n).map
      (fun i : Nat => localDate timeZone startDate + (i : Int))).Nodup := by
    refine List.Nodup.map ?_ (List.nodup_range n)
    intro i j hij
    simp only [add_right_inj, Int.natCast_inj] at hij
    exact hij
  have hcov2 : ∀ t ∈ tasksInRange tasks username startDate endDate,
      localDate timeZone t.date
        ∈ (List.range n).map (fun i : Nat => localDate timeZone startDate + (i : Int)) := by
    intro t ht
    have h := hcov t ht
    rwa [allDatesInitial_localDates] at h
  unfold reportedTotal allDatesCompletedTimes allDatesInitialCompletedTimes
  rw [List.map_map, List.map_map]
  have hpt : ∀ i ∈ List.range n,
      ((DateCompletedTime.completedTime ∘
         mergeEntry (existingDatesCompletedTimes tasks username startDate endDate timeZone)) ∘
          (fun i : Nat =>
            { localDate := localDate timeZone (startDate + (i : Int) * oneDayInMs),
              completedTime := 0 })) i
        = ((completedTimeOn (tasksInRange tasks username startDate endDate) timeZone) ∘
            (fun i : Nat => localDate timeZone startDate + (i : Int))) i := by
    intro i _
    show (mergeEntry (existingDatesCompletedTimes tasks username startDate endDate timeZone)
        { localDate := localDate timeZone (startDate + (i : Int) * oneDayInMs),
          completedTime := 0 }).completedTime
      = completedTimeOn (tasksInRange tasks username startDate endDate) timeZone
          (localDate timeZone startDate + (i : Int))
    rw [localDate_add_days, mergeEntry_sparse_eval]
  rw [List.map_congr_left hpt, ← List.map_map]
  exact sum_partition (fun t => localDate timeZone t.date) taskCompletedTime
    ((List.range n).map (fun i : Nat => localDate timeZone startDate + (i : Int)))
    (tasksInRange tasks username startDate endDate) hnd hcov2

/-- C4 witness: the conservation theorem applied at one task with one
    closed interval, one bucket, timezone offset 0. -/
theorem aggregator_conservation_witness :
    reportedTotal [⟨1, "u", "t", 0, [⟨10, 0, some 5⟩]⟩] "u" 0 0 1 0
      = (((tasksInRange [⟨1, "u", "t", 0, [⟨10, 0, some 5⟩]⟩] "u" 0 0)).map
          taskCompletedTime).sum :=
  aggregator_conservation [⟨1, "u", "t", 0, [⟨10, 0, some 5⟩]⟩] "u" 0 0 1 0
    (by decide)

end Zitbo
